import Mathlib

/-
  Verification development for the eve resource mutation pipeline
  (src/eve/methods/common.py, post.py, put.py).

  The Python modules are shallowly embedded below: documents are association
  lists in field insertion order (Python dict semantics), machine timestamps
  are naturals (seconds since the Unix epoch), exceptions are an explicit
  error type threaded through Except, and the external collaborators
  (storage gateway, validator, auth provider, shared counter store) are
  passed in as explicit data.
-/

set_option autoImplicit false
set_option maxRecDepth 8000

namespace Eve

deriving instance DecidableEq for Except

/-- Byte-wise comparison of character lists, used to order field names
canonically (String.lt itself is runtime-backed and not usable in
evaluation by the kernel). -/
def charListLtb : List Char → List Char → Bool
  | [], [] => false
  | [], _ :: _ => true
  | _ :: _, [] => false
  | a :: as, b :: bs =>
    if a.toNat < b.toNat then true
    else if b.toNat < a.toNat then false
    else charListLtb as bs

/-- Lexicographic order on strings via charListLtb. -/
def strLtb (a b : String) : Bool := charListLtb a.data b.data

/-- Values stored in a document field. Wire dates arrive as strings and are
coerced to vdate timestamps (naive UTC, seconds since the Unix epoch). -/
inductive Val where
  | vstr (s : String)
  | vdate (t : Nat)
  | vint (n : Int)
deriving DecidableEq

/-- A document: an open mapping from field names to values, realised as an
association list in field insertion order (Python dict semantics; keys are
unique in any dict produced by JSON decoding or by the pipeline). -/
abbrev Doc := List (String × Val)

/-- Python truthiness of a field value: empty strings and zero are falsy. -/
def truthyVal : Val → Bool
  | Val.vstr s => s != ""
  | Val.vdate _ => true
  | Val.vint n => n != 0

/-- Python truthiness of a dict: empty dicts are falsy. -/
def truthyDoc (d : Doc) : Bool := !d.isEmpty

/-- Dict read: first binding of the key, none when absent. -/
def getField (k : String) : Doc → Option Val
  | [] => none
  | p :: rest => if p.1 == k then some p.2 else getField k rest

/-- Dict assignment: replace the binding in place, or append a new key. -/
def setField (k : String) (v : Val) : Doc → Doc
  | [] => [(k, v)]
  | p :: rest => if p.1 == k then (k, v) :: rest else p :: setField k v rest

/-- Python membership test, the k-in-d of dict keys. -/
def containsKey (k : String) (d : Doc) : Bool := (getField k d).isSome

/-- Modelled from the spec: the server-owned field names are configuration
constants (eve config module, not under src). The spec names the three
server-owned fields id, created_at and updated_at. -/
def ID_FIELD : String := "id"

/-- Modelled from the spec: configuration constant for the update timestamp
field (see ID_FIELD). -/
def LAST_UPDATED : String := "updated_at"

/-- Modelled from the spec: configuration constant for the creation timestamp
field (see ID_FIELD). -/
def DATE_CREATED : String := "created_at"

/-- Python exceptions relevant to the pipeline: the validator's declared
ValidationError, werkzeug's InternalServerError, and every other exception
(TypeError, KeyError, AttributeError, date parse failures, ...) collapsed
to their message. -/
inductive PyExc where
  | validationError (msg : String)
  | internalServerError (msg : String)
  | other (msg : String)
deriving DecidableEq

/-- One raw payload unit as it reaches parse: either it decodes to (or
already is) a field mapping, or decoding and key enumeration of the unit
raises an exception e (for instance a non-JSON form string, whose keys
call raises AttributeError inside parse). -/
inductive RawValue where
  | dict (d : Doc)
  | raises (e : PyExc)
deriving DecidableEq

/-- Static per-resource configuration used by the pipeline, the fields of
app.config DOMAIN resource read by the embedded code. defaults pairs each
field name carrying a schema default with that declared default value
(the Python code keeps the name set and the schema separately and looks the
default up in the schema). auth_field is the identity-restriction field,
the empty string when not configured (Python uses a falsy value). -/
structure ResourceDef where
  dates : List String
  defaults : List (String × Val)
  auth_field : String
  hateoas : Bool
  extra_response_fields : List String
deriving DecidableEq

/-- Modelled from the spec: str_to_date lives in eve/utils.py, which is not
under src. The spec requires wire date strings to be coerced to internal
timestamps, with malformed dates raising a (later caught) exception; we
model a well-formed wire date as a decimal string of seconds, and any
non-string or malformed input raises like strptime does. -/
def decimalToNatGo (acc : Nat) : List Char → Option Nat
  | [] => some acc
  | c :: cs =>
    if 48 ≤ c.toNat && c.toNat ≤ 57 then decimalToNatGo (acc * 10 + (c.toNat - 48)) cs
    else none

/-- Read a non-empty all-digit string as a natural (see str_to_date). -/
def decimalToNat (s : String) : Option Nat :=
  if s.data.isEmpty then none else decimalToNatGo 0 s.data

/-- Coerce one wire date value (see the doc comment of decimalToNatGo on the
modelling of str_to_date). -/
def str_to_date : Val → Except PyExc Val
  | Val.vstr s =>
    match decimalToNat s with
    | some n => Except.ok (Val.vdate n)
    | none => Except.error (PyExc.other ("time data " ++ s ++ " does not match the date format"))
  | _ => Except.error (PyExc.other "str_to_date expects a string")

/-- The date-coercion loop of parse: every field declared in dates is fed
through str_to_date; the first failure raises out of parse. -/
def coerceDates (dates : List String) : Doc → Except PyExc Doc
  | [] => Except.ok []
  | p :: rest =>
    match (if dates.contains p.1 then str_to_date p.2 else Except.ok p.2) with
    | Except.error e => Except.error e
    | Except.ok v2 =>
      match coerceDates dates rest with
      | Except.error e => Except.error e
      | Except.ok rest2 => Except.ok ((p.1, v2) :: rest2)

/-- The defaults-injection loop of parse: the missing set is computed against
base (the document as it stood when missing_defaults was computed), and each
missing field is assigned its declared default in turn. -/
def injectDefaultsGo (base : Doc) : List (String × Val) → Doc → Doc
  | [], acc => acc
  | p :: rest, acc =>
    injectDefaultsGo base rest (if containsKey p.1 base then acc else setField p.1 p.2 acc)

/-- update the document with eventual default values (parse, common.py). -/
def injectDefaults (defaults : List (String × Val)) (base : Doc) : Doc :=
  injectDefaultsGo base defaults base

/-- Embedding of parse (common.py): decode the unit, coerce declared date
fields, and inject schema defaults when the request method is POST or PUT.
method is the ambient request_method() of the in-flight request. -/
def parse (value : RawValue) (rdef : ResourceDef) (method : String) :
    Except PyExc Doc :=
  match value with
  | RawValue.raises e => Except.error e
  | RawValue.dict d => do
    let d1 ← coerceDates rdef.dates d
    pure (if method == "POST" || method == "PUT" then injectDefaults rdef.defaults d1 else d1)

theorem getField_setField_self (k : String) (v : Val) (d : Doc) :
    getField k (setField k v d) = some v := by
  induction d with
  | nil => simp [getField, setField]
  | cons p rest ih =>
    by_cases h : p.1 = k
    · simp [getField, setField, h]
    · simp [getField, setField, h, ih]

theorem getField_setField_ne (k k2 : String) (v : Val) (d : Doc) (h : k2 ≠ k) :
    getField k (setField k2 v d) = getField k d := by
  induction d with
  | nil => simp [getField, setField, h]
  | cons p rest ih =>
    have h4 : k ≠ k2 := fun hh => h hh.symm
    by_cases h2 : p.1 = k2
    · simp [getField, setField, h2, h, h4]
    · by_cases h3 : p.1 = k
      · simp [getField, setField, h2, h3, h4]
      · simp [getField, setField, h2, h3, ih]

theorem coerceDates_containsKey (dates : List String) (d d1 : Doc)
    (h : coerceDates dates d = Except.ok d1) (k : String) :
    containsKey k d1 = containsKey k d := by
  induction d generalizing d1 with
  | nil =>
    simp [coerceDates] at h
    subst h
    rfl
  | cons p rest ih =>
    simp only [coerceDates] at h
    cases hv : (if dates.contains p.1 then str_to_date p.2 else Except.ok p.2) with
    | error e => rw [hv] at h; cases h
    | ok v2 =>
      rw [hv] at h
      cases hr : coerceDates dates rest with
      | error e => rw [hr] at h; cases h
      | ok rest2 =>
        rw [hr] at h
        simp only [Except.ok.injEq] at h
        subst h
        by_cases hk : p.1 = k
        · simp [containsKey, getField, hk]
        · have h5 := ih rest2 hr
          simp only [containsKey] at h5
          simp [containsKey, getField, hk, h5]

theorem getField_injectDefaultsGo_not_mem (base : Doc) (defaults : List (String × Val))
    (acc : Doc) (k : String) (h : ∀ q ∈ defaults, q.1 ≠ k) :
    getField k (injectDefaultsGo base defaults acc) = getField k acc := by
  induction defaults generalizing acc with
  | nil => rfl
  | cons p rest ih =>
    simp only [injectDefaultsGo]
    rw [ih _ (fun q hq => h q (List.mem_cons_of_mem p hq))]
    by_cases hc : containsKey p.1 base
    · simp [hc]
    · simp [hc, getField_setField_ne k p.1 p.2 acc (h p (List.mem_cons_self p rest))]

theorem getField_injectDefaultsGo (base : Doc) (defaults : List (String × Val))
    (f : String) (dv : Val) :
    ∀ acc : Doc, (defaults.map Prod.fst).Nodup → (f, dv) ∈ defaults →
      containsKey f base = false →
      getField f (injectDefaultsGo base defaults acc) = some dv := by
  induction defaults with
  | nil => intro acc _ hmem _; cases hmem
  | cons p rest ih =>
    intro acc hnd hmem habs
    simp only [List.map_cons, List.nodup_cons] at hnd
    rcases List.mem_cons.mp hmem with heq | htl
    · subst heq
      simp only [injectDefaultsGo, habs, Bool.false_eq_true, if_false]
      rw [getField_injectDefaultsGo_not_mem]
      · exact getField_setField_self f dv acc
      · intro q hq hqk
        have hm : q.1 ∈ rest.map Prod.fst := List.mem_map_of_mem Prod.fst hq
        rw [hqk] at hm
        exact hnd.1 hm
    · exact ih _ hnd.2 htl habs

/-- Modelled from the spec: document_etag lives in eve/utils.py, which is not
under src. The spec requires a deterministic content digest that is
independent of field insertion order; we model the digest as the canonical
serialization of the key-sorted field list. -/
def serVal : Val → String
  | Val.vstr s => "s:" ++ s
  | Val.vdate t => "d:" ++ toString t
  | Val.vint n => "i:" ++ toString n

/-- Insert a field into a key-sorted field list (see document_etag). -/
def insertField (p : String × Val) : List (String × Val) → List (String × Val)
  | [] => [p]
  | q :: qs => if strLtb p.1 q.1 then p :: q :: qs else q :: insertField p qs

/-- Sort a field list by key (see document_etag). -/
def sortFields : List (String × Val) → List (String × Val)
  | [] => []
  | p :: ps => insertField p (sortFields ps)

/-- Serialize a field list to its digest characters (see document_etag). -/
def serFieldsChars : List (String × Val) → List Char
  | [] => []
  | p :: ps => p.1.data ++ ('=' :: (serVal p.2).data) ++ (';' :: serFieldsChars ps)

/-- Modelled from the spec: the fingerprint of a document, a deterministic
digest of its content independent of field insertion order (eve/utils.py is
not under src). -/
def document_etag (d : Doc) : String := String.mk (serFieldsChars (sortFields d))

/-- Modelled from the spec: document_etag applied to an absent find_one
result (Python would digest None). No claim reaches this branch. -/
def document_etag_opt : Option Doc → String
  | some d => document_etag d
  | none => "None"

/-- epoch (common.py): datetime(1970, 1, 1), the storage-independent default
timestamp. -/
def epochVal : Val := Val.vdate 0

/-- last_updated (common.py): the stored LAST_UPDATED stripped of timezone
information (a no-op here, timestamps being naive), or the epoch default
when the field is missing. -/
def last_updated (d : Doc) : Val :=
  match getField LAST_UPDATED d with
  | some v => v
  | none => epochVal

/-- date_created (common.py): the stored DATE_CREATED, or the epoch default
when the field is missing. -/
def date_created (d : Doc) : Val :=
  match getField DATE_CREATED d with
  | some v => v
  | none => epochVal

/-- The normalization get_document performs on a fetched document before
fingerprinting: LAST_UPDATED is assigned first, DATE_CREATED second. -/
def normalizeDoc (d : Doc) : Doc :=
  setField DATE_CREATED (date_created (setField LAST_UPDATED (last_updated d) d))
    (setField LAST_UPDATED (last_updated d) d)

/-- Python truthiness of the If-Match request header: absent or empty is
falsy. -/
def truthyIfMatch : Option String → Bool
  | none => false
  | some s => s != ""

/-- Outcome of get_document: the returned value (the document, or a falsy
one passed through), or a flask abort with the given HTTP status. -/
inductive GuardResult where
  | ok (d : Option Doc)
  | abort403
  | abort412
deriving DecidableEq

/-- Embedding of get_document (common.py): found is the result of
app.data.find_one(resource, lookup), if_match the precondition token of the
parsed request. A falsy find_one result skips every check; otherwise a
missing token aborts 403, and after timestamp normalization a token other
than the current fingerprint aborts 412. -/
def get_document (found : Option Doc) (if_match : Option String) : GuardResult :=
  match found with
  | none => GuardResult.ok none
  | some d =>
    if truthyDoc d then
      if !truthyIfMatch if_match then GuardResult.abort403
      else if if_match != some (document_etag (normalizeDoc d)) then GuardResult.abort412
      else GuardResult.ok (some (normalizeDoc d))
    else GuardResult.ok (some d)

/-- The external validator: validate and validate_replace return the outcome
of the call paired with the issue list readable from validator.errors after
a failed call. -/
structure Validator where
  validate : Doc → Bool × List String
  validate_replace : Doc → Val → Bool × List String

/-- A validator is well behaved when a failed call reports at least one
issue (the spec's Validator interface: a post-call readable list of issue
strings on failure). -/
def wellBehaved (v : Validator) : Prop :=
  (∀ d, (v.validate d).1 = false → (v.validate d).2 ≠ []) ∧
  (∀ d i, (v.validate_replace d i).1 = false → (v.validate_replace d i).2 ≠ [])

/-- The authentication context consumed by validate_document:
app.auth.request_auth_value and the presence of request.authorization. -/
structure AuthCtx where
  request_auth_value : Option Val
  authorization : Bool

/-- The auth_field injection step of validate_document (common.py): when the
resource configures an identity-restriction field and a truthy auth value
plus an Authorization header are present, the value is written into the
declared field. -/
def authInject (rdef : ResourceDef) (auth : AuthCtx) (d : Doc) : Doc :=
  if rdef.auth_field != "" then
    match auth.request_auth_value with
    | some v => if truthyVal v && auth.authorization then setField rdef.auth_field v d else d
    | none => d
  else d

/-- The document component of a validate_document outcome: the Python
function returns its document variable, which still holds the raw input
value when parse raised, and the parsed (possibly stamped) dict otherwise. -/
inductive DocState where
  | raw (v : RawValue)
  | parsed (d : Doc)
deriving DecidableEq

/-- The dict held by a DocState; a raw state holding a dict unit is that
dict. A raw state holding a raising unit is not a dict (callers never read
the document when the issue list is non-empty, so this branch is inert). -/
def docOf : DocState → Doc
  | DocState.parsed d => d
  | DocState.raw (RawValue.dict d) => d
  | DocState.raw (RawValue.raises _) => []

/-- Python truthiness of the original argument of validate_document. -/
def originalTruthy : Option Doc → Bool
  | none => false
  | some d => truthyDoc d

/-- Embedding of validate_document (common.py): parse the unit, run the
validator (against the existing identity on replace), stamp server metadata
on success, and turn any exception other than ValidationError and
InternalServerError into a single issue string. now is the ambient
datetime.utcnow() truncated to seconds. -/
def validate_document (now : Nat) (value : RawValue) (validator : Validator)
    (rdef : ResourceDef) (method : String) (auth : AuthCtx)
    (original : Option Doc) : Except PyExc (DocState × List String) :=
  match parse value rdef method with
  | Except.error (PyExc.validationError m) => Except.error (PyExc.validationError m)
  | Except.error (PyExc.internalServerError m) => Except.error (PyExc.internalServerError m)
  | Except.error (PyExc.other m) => Except.ok (DocState.raw value, [m])
  | Except.ok doc =>
    if originalTruthy original then
      match getField ID_FIELD (original.getD []) with
      | none =>
        -- original[ID_FIELD] raises KeyError, caught by the generic handler
        Except.ok (DocState.parsed doc, ["KeyError: " ++ ID_FIELD])
      | some object_id =>
        if (validator.validate_replace doc object_id).1 then
          match getField DATE_CREATED (original.getD []) with
          | none =>
            -- original[DATE_CREATED] raises KeyError after the first stamps
            Except.ok (DocState.parsed
              (setField ID_FIELD object_id (setField LAST_UPDATED (Val.vdate now) doc)),
              ["KeyError: " ++ DATE_CREATED])
          | some cv =>
            Except.ok (DocState.parsed (authInject rdef auth (setField DATE_CREATED cv
              (setField ID_FIELD object_id (setField LAST_UPDATED (Val.vdate now) doc)))), [])
        else
          Except.ok (DocState.parsed doc, (validator.validate_replace doc object_id).2)
    else
      if (validator.validate doc).1 then
        Except.ok (DocState.parsed (authInject rdef auth
          (setField DATE_CREATED (Val.vdate now) (setField LAST_UPDATED (Val.vdate now) doc))), [])
      else
        Except.ok (DocState.parsed doc, (validator.validate doc).2)

/-- The storage gateway consumed by the handlers: find_one by assigned
identity (used by success_resp_item to re-read the persisted document) and
the order-preserving bulk insert returning one identity per document. The
replace call returns nothing and is recorded as an effect. -/
structure Storage where
  find_one : String → Val → Option Doc
  insert : String → List Doc → List Val

/-- Observable side effects of a mutation handler, in emission order: the
resource-wide on_insert notification, the resource-specific one, the bulk
storage insert, and the single-document storage replace. -/
inductive Effect where
  | notify (event : String)
  | notifyRes (resource : String)
  | insertCall (docs : List Doc)
  | replaceCall (id : Val) (doc : Doc)
deriving DecidableEq

/-- One response item. failure embeds failure_resp_item (a dict with
status = ERR and the issue list); success carries the dict built by
success_resp_item. -/
inductive RespItem where
  | failure (issues : List String)
  | success (item : Doc)
deriving DecidableEq

/-- failure_resp_item (common.py), keeping only the issue list the status
ERR dict carries. -/
def failure_resp_item (doc_issues : List String) : RespItem :=
  RespItem.failure doc_issues

/-- Modelled from the spec: document_link lives in eve/utils.py (not under
src); the self link keyed by the assigned identity is modelled as its
rendered value. -/
def document_link (resource : String) (id : Val) : Val :=
  Val.vstr (resource ++ "/" ++ serVal id)

/-- Embedding of success_resp_item (common.py): status, assigned identity
and the stamped LAST_UPDATED of the in-memory document, then the etag of
the document re-read from storage by identity, the optional self link, and
every configured extra response field present on the document. Validated
documents always carry LAST_UPDATED; the epoch placeholder stands on the
branch no caller reaches (Python would raise KeyError there). -/
def success_resp_item (storage : Storage) (id : Val) (document : Doc)
    (resource : String) (rdef : ResourceDef) : Doc :=
  let ri : Doc := setField "status" (Val.vstr "OK") []
  let ri := setField ID_FIELD id ri
  let ri := setField LAST_UPDATED ((getField LAST_UPDATED document).getD epochVal) ri
  let ri := setField "etag" (Val.vstr (document_etag_opt (storage.find_one resource id))) ri
  let ri := if rdef.hateoas then setField "_links" (document_link resource id) ri else ri
  (rdef.extra_response_fields.filter (fun f => containsKey f document)).foldl
    (fun acc f => setField f ((getField f document).getD epochVal) acc) ri

/-- The validation loop of post (post.py): every payload unit is validated
in order; a re-raised ValidationError or InternalServerError aborts the
whole request at that point. -/
def validatePhase (now : Nat) (validator : Validator) (rdef : ResourceDef)
    (auth : AuthCtx) : List (String × RawValue) → Except PyExc (List (DocState × List String))
  | [] => Except.ok []
  | item :: rest =>
    match validate_document now item.2 validator rdef "POST" auth none with
    | Except.error e => Except.error e
    | Except.ok r =>
      match validatePhase now validator rdef auth rest with
      | Except.error e => Except.error e
      | Except.ok rs => Except.ok (r :: rs)

/-- The documents list post accumulates: the document of every unit whose
issue list came back empty, in payload order. -/
def acceptedDocs (results : List (DocState × List String)) : List Doc :=
  (results.filter (fun r => r.2.isEmpty)).map (fun r => docOf r.1)

/-- The response-building loop of post (post.py): failure items keep their
issues; success items pop the next assigned identity and accepted document.
Exhausting either list models the IndexError pop(0) would raise. -/
def buildItems (storage : Storage) (resource : String) (rdef : ResourceDef) :
    List (String × List String) → List Val → List Doc → Except PyExc (List (String × RespItem))
  | [], _, _ => Except.ok []
  | ki :: rest, ids, docs =>
    if ki.2.isEmpty then
      match ids, docs with
      | id :: ids2, d :: docs2 =>
        match buildItems storage resource rdef rest ids2 docs2 with
        | Except.error e => Except.error e
        | Except.ok rs =>
          Except.ok ((ki.1, RespItem.success (success_resp_item storage id d resource rdef)) :: rs)
      | _, _ => Except.error (PyExc.other "IndexError: pop from empty list")
    else
      match buildItems storage resource rdef rest ids docs with
      | Except.error e => Except.error e
      | Except.ok rs => Except.ok ((ki.1, failure_resp_item ki.2) :: rs)

/-- What a run of post produces: the keyed response items in payload order
and the emitted effects. -/
structure PostOutput where
  response : List (String × RespItem)
  effects : List Effect
deriving DecidableEq

/-- The tail of post (post.py) after the validation loop: when any document
was accepted, the on_insert hooks fire (resource-wide then specific) and
one bulk storage insert runs; then the response items are assembled against
the original key order. Keeping it separate makes post easy to reason about
by cases on the validation phase. -/
def postAssemble (storage : Storage) (resource : String) (rdef : ResourceDef)
    (payl_keys : List String) (results : List (DocState × List String)) :
    Except PyExc PostOutput :=
  match buildItems storage resource rdef
      (List.zip payl_keys (results.map (fun r => r.2)))
      (if (acceptedDocs results).isEmpty then []
       else storage.insert resource (acceptedDocs results))
      (acceptedDocs results) with
  | Except.error e => Except.error e
  | Except.ok items =>
    Except.ok (PostOutput.mk items
      (if (acceptedDocs results).isEmpty then []
       else [Effect.notify "on_insert", Effect.notifyRes resource,
             Effect.insertCall (acceptedDocs results)]))

/-- Embedding of post (post.py) on an already-decoded bulk payload,
normalized to its ordered key/unit pairs (payl.items(); singular mode wraps
the payload as the single pair keyed item). Every unit is validated, the
accepted documents are announced to the on_insert hooks and bulk-inserted
in one storage call when there are any, and the response interleaves
failure and success items in the original key order. -/
def post (now : Nat) (rdef : ResourceDef) (validator : Validator) (auth : AuthCtx)
    (storage : Storage) (resource : String)
    (payl_items : List (String × RawValue)) : Except PyExc PostOutput :=
  match validatePhase now validator rdef auth payl_items with
  | Except.error e => Except.error e
  | Except.ok results =>
    postAssemble storage resource rdef (payl_items.map Prod.fst) results

/-- Outcome of put: a flask abort with the given status, or the single
response item with the last_modified value returned beside it (the etag
slot of the produced interface is always None in put.py). -/
inductive PutResult where
  | abort (status : Nat)
  | resp (item : RespItem) (last_modified : Option Val)
deriving DecidableEq

/-- Embedding of put (put.py): guard through get_document on the fetched
document, 404 on a falsy original, then validate the payload against the
original and, when clean, fire the on_insert hooks and replace the document
at its identity. found is the result of app.data.find_one(resource,
lookup); payl the decoded request payload. -/
def put (now : Nat) (rdef : ResourceDef) (validator : Validator) (auth : AuthCtx)
    (storage : Storage) (resource : String)
    (found : Option Doc) (if_match : Option String) (payl : RawValue) :
    Except PyExc (PutResult × List Effect) :=
  match get_document found if_match with
  | GuardResult.abort403 => Except.ok (PutResult.abort 403, [])
  | GuardResult.abort412 => Except.ok (PutResult.abort 412, [])
  | GuardResult.ok none => Except.ok (PutResult.abort 404, [])
  | GuardResult.ok (some original) =>
    if truthyDoc original then
      match getField ID_FIELD original with
      | none =>
        -- original[ID_FIELD] raises KeyError out of put, uncaught
        Except.error (PyExc.other ("KeyError: " ++ ID_FIELD))
      | some object_id =>
        match validate_document now payl validator rdef "PUT" auth (some original) with
        | Except.error e => Except.error e
        | Except.ok (st, issues) =>
          if issues.isEmpty then
            let document := docOf st
            Except.ok
              (PutResult.resp
                (RespItem.success (success_resp_item storage object_id document resource rdef))
                (getField LAST_UPDATED document),
               [Effect.notify "on_insert", Effect.notifyRes resource,
                Effect.replaceCall object_id document])
          else
            Except.ok (PutResult.resp (failure_resp_item issues) none, [])
    else Except.ok (PutResult.abort 404, [])

/-- The per-window rate limit state built by RateLimit.__init__ (common.py):
reset is the current window boundary, key embeds it, and current is the
count returned by the atomic increment pipeline, clamped to limit + 1. -/
structure RateLimitState where
  reset : Nat
  key : String
  limit : Nat
  period : Nat
  send_x_headers : Bool
  current : Nat
deriving DecidableEq

/-- Embedding of RateLimit.__init__ (common.py): now is int(time.time()),
store_count the integer the shared store returns from the atomic increment
of the window key (p.execute()[0]). -/
def RateLimit_init (now : Nat) ( keyPref : String) (limit : Nat) (period : Nat)
    (send_x_headers : Bool) (store_count : Nat) : RateLimitState :=
  let reset := now / period * period + period
  { reset := reset
    key := keyPref ++ toString reset
    limit := limit
    period := period
    send_x_headers := send_x_headers
    current := min store_count (limit + 1) }

/-- The remaining property of RateLimit (common.py): limit - current. -/
def RateLimitState.remaining (r : RateLimitState) : Int :=
  (r.limit : Int) - (r.current : Int)

/-- The over_limit property of RateLimit (common.py): current > limit. -/
def RateLimitState.over_limit (r : RateLimitState) : Bool :=
  r.limit < r.current

/-- A resource configuration declaring a schema default for the field
status and nothing else, used for concrete guard and parse scenarios. -/
def rdefDefaults : ResourceDef :=
  ResourceDef.mk [] [("status", Val.vstr "active")] "" false []

/-- C1, counterexample: the claim says a replace (PUT) payload never has
absent defaulted fields injected, but parse (common.py line 99) injects
defaults for request methods POST and PUT alike: the empty PUT payload for
a resource whose schema defaults status to active parses to a document
carrying status = active. -/
theorem c1_put_defaults_counterexample :
    getField "status" ([] : Doc) = none ∧
    parse (RawValue.dict []) rdefDefaults "PUT" =
      Except.ok [("status", Val.vstr "active")] := by
  exact ⟨by decide, by decide⟩

/-- C1 (amended): default injection applies to insert (POST) and replace
(PUT) payloads alike — for either method, any field declared with a schema
default that is absent from the payload is injected with the declared
default by parse. -/
theorem c1_put_defaults_amended (rdef : ResourceDef) (d : Doc) (method : String)
    (f : String) (dv : Val) (out : Doc)
    (hm : method = "POST" ∨ method = "PUT")
    (hnd : (rdef.defaults.map Prod.fst).Nodup)
    (hmem : (f, dv) ∈ rdef.defaults)
    (habs : containsKey f d = false)
    (hp : parse (RawValue.dict d) rdef method = Except.ok out) :
    getField f out = some dv := by
  simp only [parse] at hp
  cases hc : coerceDates rdef.dates d with
  | error e =>
    rw [hc] at hp
    cases hp
  | ok d1 =>
    rw [hc] at hp
    have hcond : (method == "POST" || method == "PUT") = true := by
      rcases hm with hm | hm <;> simp [hm]
    simp only [bind, Except.bind, pure, Except.pure, hcond, if_true, Except.ok.injEq] at hp
    subst hp
    have habs1 : containsKey f d1 = false := by
      rw [coerceDates_containsKey rdef.dates d d1 hc f]; exact habs
    exact getField_injectDefaultsGo d1 rdef.defaults f dv d1 hnd hmem habs1

/-- Witness for c1_put_defaults_amended at the concrete PUT scenario of the
counterexample. -/
theorem c1_put_defaults_amended_witness :
    ((rdefDefaults.defaults.map Prod.fst).Nodup ∧
     ("status", Val.vstr "active") ∈ rdefDefaults.defaults ∧
     containsKey "status" ([] : Doc) = false ∧
     parse (RawValue.dict []) rdefDefaults "PUT" =
       Except.ok [("status", Val.vstr "active")]) ∧
    getField "status" [("status", Val.vstr "active")] = some (Val.vstr "active") :=
  ⟨⟨by decide, by decide, by decide, by decide⟩,
   c1_put_defaults_amended rdefDefaults [] "PUT" "status" (Val.vstr "active")
     [("status", Val.vstr "active")] (Or.inr rfl) (by decide) (by decide)
     (by decide) (by decide)⟩

/-- C6, counterexample: the claim exposes remaining as limit minus the raw
count returned by the shared store's atomic increment, but RateLimit
(common.py line 163) clamps current to limit + 1 first: with limit 2 and a
store count of 10, remaining is -1, not 2 - 10 = -8. -/
theorem c6_rate_limit_counterexample :
    (RateLimit_init 0 "rate-limit/c" 2 60 true 10).remaining = -1 ∧
    (RateLimit_init 0 "rate-limit/c" 2 60 true 10).remaining ≠ (2 : Int) - (10 : Int) := by
  exact ⟨by decide, by decide⟩

/-- C6 (amended): the returned state exposes current as the store's atomic
increment count clamped to limit + 1, remaining = limit - current (hence at
least -1, and it can go negative), and over_limit = (current > limit),
which is still equivalent to the raw count exceeding the limit. -/
theorem c6_rate_limit_amended (now : Nat) (kp : String) (limit period : Nat)
    (sx : Bool) (store_count : Nat) :
    (RateLimit_init now kp limit period sx store_count).current = min store_count (limit + 1) ∧
    (RateLimit_init now kp limit period sx store_count).remaining =
      (limit : Int) - ((min store_count (limit + 1) : Nat) : Int) ∧
    ((RateLimit_init now kp limit period sx store_count).over_limit = true ↔ limit < store_count) ∧
    (-1 : Int) ≤ (RateLimit_init now kp limit period sx store_count).remaining := by
  refine ⟨rfl, rfl, ?_, ?_⟩
  · simp only [RateLimit_init, RateLimitState.over_limit, decide_eq_true_eq]
    omega
  · simp only [RateLimit_init, RateLimitState.remaining]
    omega

/-- C7: a payload unit whose decoding or date coercion raises an exception
is reported as exactly one synthetic issue string in the outcome when the
exception is neither a validator-declared ValidationError nor an
InternalServerError; those two kinds propagate out of validate_document
unchanged (common.py lines 303-311). -/
theorem c7_exception_to_single_issue (now : Nat) (value : RawValue)
    (validator : Validator) (rdef : ResourceDef) (method : String)
    (auth : AuthCtx) (original : Option Doc) (e : PyExc)
    (hp : parse value rdef method = Except.error e) :
    validate_document now value validator rdef method auth original =
      match e with
      | PyExc.other m => Except.ok (DocState.raw value, [m])
      | PyExc.validationError m => Except.error (PyExc.validationError m)
      | PyExc.internalServerError m => Except.error (PyExc.internalServerError m) := by
  cases e <;> simp only [validate_document, hp]

/-- Witness for c7_exception_to_single_issue: a unit whose decoding raises a
generic TypeError-like exception comes back as one issue, not a raise. -/
theorem c7_exception_to_single_issue_witness :
    (parse (RawValue.raises (PyExc.other "boom")) rdefDefaults "POST" =
      Except.error (PyExc.other "boom")) ∧
    validate_document 0 (RawValue.raises (PyExc.other "boom"))
        (Validator.mk (fun _ => (true, [])) (fun _ _ => (true, [])))
        rdefDefaults "POST" (AuthCtx.mk none false) none =
      Except.ok (DocState.raw (RawValue.raises (PyExc.other "boom")), ["boom"]) :=
  ⟨by decide,
   c7_exception_to_single_issue 0 (RawValue.raises (PyExc.other "boom"))
     (Validator.mk (fun _ => (true, [])) (fun _ _ => (true, [])))
     rdefDefaults "POST" (AuthCtx.mk none false) none (PyExc.other "boom") (by decide)⟩

theorem setField_ne_nil (k : String) (v : Val) (d : Doc) : setField k v d ≠ [] := by
  cases d with
  | nil => simp [setField]
  | cons p rest =>
    by_cases h : p.1 = k <;> simp [setField, h]

theorem insertField_ne_nil (p : String × Val) (l : List (String × Val)) :
    insertField p l ≠ [] := by
  cases l with
  | nil => simp [insertField]
  | cons q qs =>
    by_cases h : strLtb p.1 q.1 <;> simp [insertField, h]

theorem sortFields_ne_nil (l : List (String × Val)) (h : l ≠ []) :
    sortFields l ≠ [] := by
  cases l with
  | nil => exact absurd rfl h
  | cons p ps => simp [sortFields, insertField_ne_nil]

theorem serFieldsChars_ne_nil (p : String × Val) (ps : List (String × Val)) :
    serFieldsChars (p :: ps) ≠ [] := by
  simp [serFieldsChars]

theorem document_etag_ne_empty (d : Doc) (h : d ≠ []) : document_etag d ≠ "" := by
  unfold document_etag
  cases hs : sortFields d with
  | nil => exact absurd hs (sortFields_ne_nil d h)
  | cons p ps =>
    intro hcontra
    have hdata := congrArg String.data hcontra
    exact serFieldsChars_ne_nil p ps hdata

theorem normalizeDoc_ne_nil (d : Doc) : normalizeDoc d ≠ [] := by
  unfold normalizeDoc
  exact setField_ne_nil DATE_CREATED _ _

theorem getField_normalizeDoc_LAST_UPDATED (d : Doc) :
    getField LAST_UPDATED (normalizeDoc d) = some (last_updated d) := by
  unfold normalizeDoc
  rw [getField_setField_ne LAST_UPDATED DATE_CREATED _ _ (by decide)]
  exact getField_setField_self LAST_UPDATED _ d

theorem getField_normalizeDoc_DATE_CREATED (d : Doc) :
    getField DATE_CREATED (normalizeDoc d) =
      some (date_created (setField LAST_UPDATED (last_updated d) d)) := by
  unfold normalizeDoc
  exact getField_setField_self DATE_CREATED _ _

/-- C2: for a replace of an existing (truthy) stored document, get_document
first normalizes the fetched document, synthesizing missing created_at and
updated_at fields from the epoch default, then compares the caller's token
to the fingerprint of the normalized document by exact equality: the
fingerprint itself passes the guard and the normalized document is
returned, while any other token makes the whole put request abort 412 with
no storage mutation effect and a result independent of the validator and
the payload (common.py lines 51-61, put.py). -/
theorem c2_replace_fingerprint_guard (d : Doc) (hd : truthyDoc d = true) :
    (getField LAST_UPDATED d = none →
      getField LAST_UPDATED (normalizeDoc d) = some epochVal) ∧
    (getField DATE_CREATED d = none →
      getField DATE_CREATED (normalizeDoc d) = some epochVal) ∧
    get_document (some d) (some (document_etag (normalizeDoc d))) =
      GuardResult.ok (some (normalizeDoc d)) ∧
    (∀ t : String, t ≠ "" → t ≠ document_etag (normalizeDoc d) →
      get_document (some d) (some t) = GuardResult.abort412 ∧
      ∀ (now : Nat) (rdef : ResourceDef) (validator : Validator) (auth : AuthCtx)
        (storage : Storage) (resource : String) (payl : RawValue),
        put now rdef validator auth storage resource (some d) (some t) payl =
          Except.ok (PutResult.abort 412, [])) := by
  have hetag : document_etag (normalizeDoc d) ≠ "" :=
    document_etag_ne_empty (normalizeDoc d) (normalizeDoc_ne_nil d)
  refine ⟨?_, ?_, ?_, ?_⟩
  · intro hm
    rw [getField_normalizeDoc_LAST_UPDATED]
    simp [last_updated, hm]
  · intro hm
    rw [getField_normalizeDoc_DATE_CREATED]
    have hm2 : getField DATE_CREATED (setField LAST_UPDATED (last_updated d) d) = none := by
      rw [getField_setField_ne DATE_CREATED LAST_UPDATED _ _ (by decide)]
      exact hm
    simp [date_created, hm2]
  · simp [get_document, hd, truthyIfMatch, hetag]
  · intro t ht htne
    have hguard : get_document (some d) (some t) = GuardResult.abort412 := by
      simp [get_document, hd, truthyIfMatch, ht, htne]
    refine ⟨hguard, ?_⟩
    intro now rdef validator auth storage resource payl
    simp [put, hguard]

/-- Witness for c2_replace_fingerprint_guard at a concrete stored document
and the concrete stale token x. -/
theorem c2_replace_fingerprint_guard_witness :
    (truthyDoc [("name", Val.vstr "bob")] = true ∧
     ("x" : String) ≠ "" ∧
     ("x" : String) ≠ document_etag (normalizeDoc [("name", Val.vstr "bob")])) ∧
    get_document (some [("name", Val.vstr "bob")])
        (some (document_etag (normalizeDoc [("name", Val.vstr "bob")]))) =
      GuardResult.ok (some (normalizeDoc [("name", Val.vstr "bob")])) ∧
    get_document (some [("name", Val.vstr "bob")]) (some "x") = GuardResult.abort412 :=
  ⟨⟨by decide, by decide, by decide⟩,
   (c2_replace_fingerprint_guard [("name", Val.vstr "bob")] (by decide)).2.2.1,
   ((c2_replace_fingerprint_guard [("name", Val.vstr "bob")] (by decide)).2.2.2
     "x" (by decide) (by decide)).1⟩

/-- C3: a replace whose lookup matches an existing (truthy) document and
whose request carries no precondition token aborts 403, whatever the
document content; at the put level the whole request yields the 403 abort
with no effects, independently of the validator, payload, storage and
clock, so no fingerprint comparison, validation or storage call happens
(common.py lines 44-49, put.py). -/
theorem c3_replace_requires_token (d : Doc) (hd : truthyDoc d = true) :
    get_document (some d) none = GuardResult.abort403 ∧
    ∀ (now : Nat) (rdef : ResourceDef) (validator : Validator) (auth : AuthCtx)
      (storage : Storage) (resource : String) (payl : RawValue),
      put now rdef validator auth storage resource (some d) none payl =
        Except.ok (PutResult.abort 403, []) := by
  have hguard : get_document (some d) none = GuardResult.abort403 := by
    simp [get_document, hd, truthyIfMatch]
  refine ⟨hguard, ?_⟩
  intro now rdef validator auth storage resource payl
  simp [put, hguard]

/-- Witness for c3_replace_requires_token at a concrete stored document. -/
theorem c3_replace_requires_token_witness :
    truthyDoc [("name", Val.vstr "bob")] = true ∧
    get_document (some [("name", Val.vstr "bob")]) none = GuardResult.abort403 :=
  ⟨by decide, (c3_replace_requires_token [("name", Val.vstr "bob")] (by decide)).1⟩

/-- C10: when the lookup matches no stored document, get_document returns
the absent value whatever the precondition token is — in particular no 403
is raised when the token is missing — and the put handler reports a 404
abort with no effects (common.py lines 41-63, put.py lines 41-44). -/
theorem c10_replace_not_found (if_match : Option String) (now : Nat)
    (rdef : ResourceDef) (validator : Validator) (auth : AuthCtx)
    (storage : Storage) (resource : String) (payl : RawValue) :
    get_document none if_match = GuardResult.ok none ∧
    put now rdef validator auth storage resource none if_match payl =
      Except.ok (PutResult.abort 404, []) := by
  exact ⟨rfl, rfl⟩

theorem getField_foldl_setField (g : String → Val) (k : String) :
    ∀ (fields : List String) (ri : Doc), (∀ f ∈ fields, f ≠ k) →
      getField k (List.foldl (fun acc f => setField f (g f) acc) ri fields) = getField k ri := by
  intro fields
  induction fields with
  | nil => intro ri _; rfl
  | cons f fs ih =>
    intro ri h
    simp only [List.foldl_cons]
    rw [ih _ (fun q hq => h q (List.mem_cons_of_mem f hq))]
    exact getField_setField_ne k f (g f) ri (h f (List.mem_cons_self f fs))

/-- C8: the etag of a success response item is the fingerprint of the
persisted document re-read from storage by the assigned identity, and it
does not depend on the in-memory document passed to success_resp_item
(common.py lines 329-331); the configured extra response fields are assumed
not to shadow the reserved etag key. -/
theorem c8_etag_from_persisted (storage : Storage) (resource : String)
    (rdef : ResourceDef) (id : Val) (document : Doc) (pd : Doc)
    (hx : "etag" ∉ rdef.extra_response_fields)
    (hf : storage.find_one resource id = some pd) :
    getField "etag" (success_resp_item storage id document resource rdef) =
      some (Val.vstr (document_etag pd)) ∧
    ∀ doc2 : Doc,
      getField "etag" (success_resp_item storage id doc2 resource rdef) =
        some (Val.vstr (document_etag pd)) := by
  have key : ∀ doc2 : Doc,
      getField "etag" (success_resp_item storage id doc2 resource rdef) =
        some (Val.vstr (document_etag pd)) := by
    intro doc2
    simp only [success_resp_item]
    rw [getField_foldl_setField (fun f => (getField f doc2).getD epochVal) "etag"
      (rdef.extra_response_fields.filter (fun f => containsKey f doc2)) _
      (fun f hfmem => by
        intro hfe
        exact hx (hfe ▸ (List.mem_filter.mp hfmem).1))]
    have hlinks : getField "etag"
        (if rdef.hateoas then
          setField "_links" (document_link resource id)
            (setField "etag" (Val.vstr (document_etag_opt (storage.find_one resource id)))
              (setField LAST_UPDATED ((getField LAST_UPDATED doc2).getD epochVal)
                (setField ID_FIELD id (setField "status" (Val.vstr "OK") []))))
        else
          setField "etag" (Val.vstr (document_etag_opt (storage.find_one resource id)))
            (setField LAST_UPDATED ((getField LAST_UPDATED doc2).getD epochVal)
              (setField ID_FIELD id (setField "status" (Val.vstr "OK") [])))) =
        some (Val.vstr (document_etag_opt (storage.find_one resource id))) := by
      by_cases hh : rdef.hateoas
      · simp only [hh, if_true]
        rw [getField_setField_ne "etag" "_links" _ _ (by decide)]
        exact getField_setField_self "etag" _ _
      · simp only [hh, if_false]
        exact getField_setField_self "etag" _ _
    rw [hlinks, hf]
    rfl
  exact ⟨key document, key⟩

/-- Witness for c8_etag_from_persisted: concrete storage whose re-read
returns a normalized document different from the in-memory one; the etag
comes from the re-read document. -/
theorem c8_etag_from_persisted_witness :
    (("etag" ∉ ([] : List String)) ∧
     (Storage.mk (fun _ _ => some [("z", Val.vint 9)]) (fun _ docs => docs.map (fun _ => Val.vint 7))).find_one
        "people" (Val.vint 7) = some [("z", Val.vint 9)]) ∧
    getField "etag"
        (success_resp_item
          (Storage.mk (fun _ _ => some [("z", Val.vint 9)]) (fun _ docs => docs.map (fun _ => Val.vint 7)))
          (Val.vint 7) [("name", Val.vstr "a")] "people" rdefDefaults) =
      some (Val.vstr (document_etag [("z", Val.vint 9)])) :=
  ⟨⟨by decide, rfl⟩,
   (c8_etag_from_persisted
     (Storage.mk (fun _ _ => some [("z", Val.vint 9)]) (fun _ docs => docs.map (fun _ => Val.vint 7)))
     "people" rdefDefaults (Val.vint 7) [("name", Val.vstr "a")] [("z", Val.vint 9)]
     (by decide) rfl).1⟩

theorem getField_authInject_ne (rdef : ResourceDef) (auth : AuthCtx) (d : Doc)
    (k : String) (h : rdef.auth_field ≠ k) :
    getField k (authInject rdef auth d) = getField k d := by
  unfold authInject
  split
  · split
    · split
      · exact getField_setField_ne k rdef.auth_field _ d h
      · rfl
    · rfl
  · rfl


/-- C9: every outcome validate_document returns holds exactly one of the
two: an empty issue list together with a parsed document carrying the
stamped server metadata (updated_at = now; created_at and id carried over
from the original on replace, created_at = updated_at on insert), or a
non-empty issue list with the document left as the raw input or the bare
parse output, with no metadata stamping (common.py lines 269-313). The two
sides are mutually exclusive since their issue-list conditions contradict.
Hypotheses: the validator reports at least one issue on failure, an
original passed by put has been normalized (it carries id and created_at),
and the configured identity-restriction field does not shadow a
server-owned field. -/
theorem c9_outcome_dichotomy (now : Nat) (value : RawValue) (validator : Validator)
    (rdef : ResourceDef) (method : String) (auth : AuthCtx) (original : Option Doc)
    (st : DocState) (issues : List String)
    (hwb : wellBehaved validator)
    (horig : ∀ od, original = some od → truthyDoc od = true →
      containsKey ID_FIELD od = true ∧ containsKey DATE_CREATED od = true)
    (hauth : rdef.auth_field ≠ LAST_UPDATED ∧ rdef.auth_field ≠ DATE_CREATED ∧
      rdef.auth_field ≠ ID_FIELD)
    (h : validate_document now value validator rdef method auth original =
      Except.ok (st, issues)) :
    (issues = [] ∧ ∃ dd, st = DocState.parsed dd ∧
      getField LAST_UPDATED dd = some (Val.vdate now) ∧
      (originalTruthy original = false →
        getField DATE_CREATED dd = some (Val.vdate now)) ∧
      (∀ od, original = some od → truthyDoc od = true →
        getField ID_FIELD dd = getField ID_FIELD od ∧
        getField DATE_CREATED dd = getField DATE_CREATED od)) ∨
    (issues ≠ [] ∧ (st = DocState.raw value ∨
      ∃ d0, parse value rdef method = Except.ok d0 ∧ st = DocState.parsed d0)) := by
  unfold validate_document at h
  split at h
  · cases h
  · cases h
  · rename_i m heq
    simp only [Except.ok.injEq, Prod.mk.injEq] at h
    right
    refine ⟨?_, Or.inl h.1.symm⟩
    rw [← h.2]
    simp
  · rename_i doc heq
    split at h
    · -- replace path: originalTruthy original = true
      rename_i htr
      cases original with
      | none => simp [originalTruthy] at htr
      | some od =>
        have hodt : truthyDoc od = true := htr
        have hcont := horig od rfl hodt
        split at h
        · rename_i hnone
          rw [Option.getD_some] at hnone
          have h1 := hcont.1
          simp [containsKey, hnone] at h1
        · rename_i object_id hsome
          rw [Option.getD_some] at hsome
          split at h
          · rename_i hval
            split at h
            · rename_i hnone2
              rw [Option.getD_some] at hnone2
              have h2 := hcont.2
              simp [containsKey, hnone2] at h2
            · rename_i cv hcv
              rw [Option.getD_some] at hcv
              simp only [Except.ok.injEq, Prod.mk.injEq] at h
              left
              refine ⟨h.2.symm, _, h.1.symm, ?_, ?_, ?_⟩
              · rw [getField_authInject_ne rdef auth _ LAST_UPDATED hauth.1,
                  getField_setField_ne LAST_UPDATED DATE_CREATED _ _ (by decide),
                  getField_setField_ne LAST_UPDATED ID_FIELD _ _ (by decide)]
                exact getField_setField_self LAST_UPDATED _ doc
              · intro hfalse
                simp [originalTruthy, hodt] at hfalse
              · intro od2 hod2 _
                have hodeq : od = od2 := Option.some.inj hod2
                subst hodeq
                constructor
                · rw [getField_authInject_ne rdef auth _ ID_FIELD hauth.2.2,
                    getField_setField_ne ID_FIELD DATE_CREATED _ _ (by decide),
                    getField_setField_self ID_FIELD _ _, hsome]
                · rw [getField_authInject_ne rdef auth _ DATE_CREATED hauth.2.1,
                    getField_setField_self DATE_CREATED _ _, hcv]
          · rename_i hval
            simp only [Except.ok.injEq, Prod.mk.injEq] at h
            right
            refine ⟨?_, Or.inr ⟨doc, heq, h.1.symm⟩⟩
            rw [← h.2]
            exact hwb.2 doc object_id (by simpa using hval)
    · -- insert path: originalTruthy original = false
      rename_i htr
      split at h
      · rename_i hval
        simp only [Except.ok.injEq, Prod.mk.injEq] at h
        left
        refine ⟨h.2.symm, _, h.1.symm, ?_, ?_, ?_⟩
        · rw [getField_authInject_ne rdef auth _ LAST_UPDATED hauth.1,
            getField_setField_ne LAST_UPDATED DATE_CREATED _ _ (by decide)]
          exact getField_setField_self LAST_UPDATED _ doc
        · intro _
          rw [getField_authInject_ne rdef auth _ DATE_CREATED hauth.2.1]
          exact getField_setField_self DATE_CREATED _ _
        · intro od2 hod2 hodt2
          exfalso
          apply htr
          rw [hod2]
          exact hodt2
      · rename_i hval
        simp only [Except.ok.injEq, Prod.mk.injEq] at h
        right
        refine ⟨?_, Or.inr ⟨doc, heq, h.1.symm⟩⟩
        rw [← h.2]
        exact hwb.1 doc (by simpa using hval)

/-- A validator accepting every document, for concrete scenarios. -/
def acceptAllValidator : Validator :=
  Validator.mk (fun _ => (true, [])) (fun _ _ => (true, []))

theorem acceptAllValidator_wellBehaved : wellBehaved acceptAllValidator :=
  ⟨fun _ hd => (nomatch hd), fun _ _ hd => (nomatch hd)⟩

/-- The stamped document of the c9 witness scenario. -/
def c9wDoc : Doc :=
  [("name", Val.vstr "a"), ("status", Val.vstr "active"),
   (LAST_UPDATED, Val.vdate 7), (DATE_CREATED, Val.vdate 7)]

/-- Witness for c9_outcome_dichotomy at a concrete insert of one clean
payload unit. -/
theorem c9_outcome_dichotomy_witness :
    (validate_document 7 (RawValue.dict [("name", Val.vstr "a")]) acceptAllValidator
        rdefDefaults "POST" (AuthCtx.mk none false) none =
      Except.ok (DocState.parsed c9wDoc, [])) ∧
    ((([] : List String) = [] ∧ ∃ dd, DocState.parsed c9wDoc = DocState.parsed dd ∧
      getField LAST_UPDATED dd = some (Val.vdate 7) ∧
      (originalTruthy none = false → getField DATE_CREATED dd = some (Val.vdate 7)) ∧
      (∀ od, (none : Option Doc) = some od → truthyDoc od = true →
        getField ID_FIELD dd = getField ID_FIELD od ∧
        getField DATE_CREATED dd = getField DATE_CREATED od)) ∨
    (([] : List String) ≠ [] ∧ (DocState.parsed c9wDoc =
        DocState.raw (RawValue.dict [("name", Val.vstr "a")]) ∨
      ∃ d0, parse (RawValue.dict [("name", Val.vstr "a")]) rdefDefaults "POST" =
          Except.ok d0 ∧ DocState.parsed c9wDoc = DocState.parsed d0))) :=
  ⟨by decide,
   c9_outcome_dichotomy 7 (RawValue.dict [("name", Val.vstr "a")]) acceptAllValidator
     rdefDefaults "POST" (AuthCtx.mk none false) none (DocState.parsed c9wDoc) []
     acceptAllValidator_wellBehaved (fun od h => nomatch h)
     ⟨by decide, by decide, by decide⟩ (by decide)⟩

/-- Whether a response item is a failure item. -/
def isFailureItem : RespItem → Bool
  | RespItem.failure _ => true
  | RespItem.success _ => false

/-- Whether an effect is the bulk storage insert call. -/
def isInsertCall : Effect → Bool
  | Effect.insertCall _ => true
  | _ => false

@[simp] theorem isFailureItem_failure (iss : List String) :
    isFailureItem (RespItem.failure iss) = true := rfl

@[simp] theorem isFailureItem_success (d : Doc) :
    isFailureItem (RespItem.success d) = false := rfl

theorem validatePhase_length (now : Nat) (validator : Validator) (rdef : ResourceDef)
    (auth : AuthCtx) :
    ∀ (items : List (String × RawValue)) (results : List (DocState × List String)),
      validatePhase now validator rdef auth items = Except.ok results →
      results.length = items.length := by
  intro items
  induction items with
  | nil =>
    intro results h
    simp only [validatePhase, Except.ok.injEq] at h
    rw [← h]
    rfl
  | cons item rest ih =>
    intro results h
    simp only [validatePhase] at h
    cases hv : validate_document now item.2 validator rdef "POST" auth none with
    | error e => rw [hv] at h; cases h
    | ok r =>
      rw [hv] at h
      cases hr : validatePhase now validator rdef auth rest with
      | error e => rw [hr] at h; cases h
      | ok rs =>
        rw [hr] at h
        simp only [Except.ok.injEq] at h
        rw [← h]
        simp [ih rs hr]

theorem length_filter_map_general {α β : Type} (g : α → β) (f : β → Bool) (l : List α) :
    ((l.map g).filter f).length = (l.filter (fun x => f (g x))).length := by
  induction l with
  | nil => rfl
  | cons a l ih =>
    by_cases h : f (g a) <;> simp [List.filter_cons, h, ih]

theorem zip_filter_snd_length {α β : Type} (f : β → Bool) :
    ∀ (ks : List α) (vs : List β), ks.length = vs.length →
      ((List.zip ks vs).filter (fun p => f p.2)).length = (vs.filter f).length := by
  intro ks
  induction ks with
  | nil =>
    intro vs h
    cases vs with
    | nil => rfl
    | cons v vs => simp at h
  | cons k ks ih =>
    intro vs h
    cases vs with
    | nil => simp at h
    | cons v vs =>
      simp only [List.zip_cons_cons, List.filter_cons]
      by_cases hf : f v
      · simp [hf, ih vs (by simpa using h)]
      · simp [hf, ih vs (by simpa using h)]

theorem length_filter_add_length_filter_not {α : Type} (p : α → Bool) (l : List α) :
    (l.filter p).length + (l.filter (fun a => !p a)).length = l.length := by
  induction l with
  | nil => rfl
  | cons a l ih =>
    by_cases h : p a <;> simp [List.filter_cons, h] <;> omega

theorem buildItems_spec (storage : Storage) (resource : String) (rdef : ResourceDef) :
    ∀ (kiss : List (String × List String)) (ids : List Val) (docs : List Doc),
      (kiss.filter (fun p => p.2.isEmpty)).length ≤ ids.length →
      (kiss.filter (fun p => p.2.isEmpty)).length ≤ docs.length →
      ∃ items, buildItems storage resource rdef kiss ids docs = Except.ok items ∧
        items.map Prod.fst = kiss.map Prod.fst ∧
        (items.filter (fun q => isFailureItem q.2)).length =
          (kiss.filter (fun p => !p.2.isEmpty)).length ∧
        (items.filter (fun q => !isFailureItem q.2)).length =
          (kiss.filter (fun p => p.2.isEmpty)).length ∧
        (∀ q ∈ items, ∀ iss, q.2 = RespItem.failure iss → iss ≠ []) := by
  intro kiss
  induction kiss with
  | nil =>
    intro ids docs _ _
    refine ⟨[], rfl, rfl, rfl, rfl, ?_⟩
    intro q hq
    cases hq
  | cons ki rest ih =>
    intro ids docs hbi hbd
    by_cases hke : ki.2.isEmpty = true
    · have hfilter : ((ki :: rest).filter (fun p => p.2.isEmpty)).length =
          (rest.filter (fun p => p.2.isEmpty)).length + 1 := by
        simp [List.filter_cons, hke]
      rw [hfilter] at hbi hbd
      cases ids with
      | nil => simp at hbi
      | cons id ids2 =>
        cases docs with
        | nil => simp at hbd
        | cons d docs2 =>
          obtain ⟨rs, hbuild, hmap, hfail, hsucc, hiss⟩ :=
            ih ids2 docs2 (by simpa using hbi) (by simpa using hbd)
          refine ⟨(ki.1, RespItem.success (success_resp_item storage id d resource rdef)) :: rs,
            ?_, ?_, ?_, ?_, ?_⟩
          · simp only [buildItems, hke, if_true]
            rw [hbuild]
          · simp [hmap]
          · simp [List.filter_cons, hke, hfail]
          · simp [List.filter_cons, hke, hsucc]
          · intro q hq iss hq2
            rcases List.mem_cons.mp hq with hhd | hmem
            · rw [hhd] at hq2
              cases hq2
            · exact hiss q hmem iss hq2
    · have hfilter : ((ki :: rest).filter (fun p => p.2.isEmpty)).length =
          (rest.filter (fun p => p.2.isEmpty)).length := by
        simp [List.filter_cons, hke]
      rw [hfilter] at hbi hbd
      obtain ⟨rs, hbuild, hmap, hfail, hsucc, hiss⟩ := ih ids docs hbi hbd
      refine ⟨(ki.1, failure_resp_item ki.2) :: rs, ?_, ?_, ?_, ?_, ?_⟩
      · simp only [buildItems, hke, if_false]
        rw [hbuild]
        rfl
      · simp [hmap]
      · simp [List.filter_cons, hke, hfail, failure_resp_item]
      · simp [List.filter_cons, hke, hsucc, failure_resp_item]
      · intro q hq iss hq2
        rcases List.mem_cons.mp hq with hhd | hmem
        · rw [hhd] at hq2
          simp only [failure_resp_item, RespItem.failure.injEq] at hq2
          intro hnil
          apply hke
          rw [hq2, hnil]
          rfl
        · exact hiss q hmem iss hq2

@[simp] theorem isInsertCall_notify (e : String) :
    isInsertCall (Effect.notify e) = false := rfl

@[simp] theorem isInsertCall_notifyRes (r : String) :
    isInsertCall (Effect.notifyRes r) = false := rfl

@[simp] theorem isInsertCall_insertCall (docs : List Doc) :
    isInsertCall (Effect.insertCall docs) = true := rfl

theorem acceptedDocs_length (results : List (DocState × List String)) :
    (acceptedDocs results).length =
      (results.filter (fun r => r.2.isEmpty)).length := by
  unfold acceptedDocs
  exact List.length_map _ _

/-- C4: a bulk insert of N payload units of which exactly K come back with
issues yields a response of N items carrying the original keys in order; K
failure items, each with a non-empty issue list, and N - K success items;
and when K < N the emitted effects contain exactly one storage insert call,
holding exactly the N - K accepted (stamped) documents in their original
payload order (post.py lines 106-143). -/
theorem c4_bulk_insert_aggregation (now : Nat) (rdef : ResourceDef)
    (validator : Validator) (auth : AuthCtx) (storage : Storage) (resource : String)
    (payl_items : List (String × RawValue)) (results : List (DocState × List String))
    (out : PostOutput)
    (hv : validatePhase now validator rdef auth payl_items = Except.ok results)
    (hstore : ∀ docs, (storage.insert resource docs).length = docs.length)
    (hpost : post now rdef validator auth storage resource payl_items = Except.ok out) :
    out.response.map Prod.fst = payl_items.map Prod.fst ∧
    out.response.length = payl_items.length ∧
    (∀ q ∈ out.response, ∀ iss, q.2 = RespItem.failure iss → iss ≠ []) ∧
    (out.response.filter (fun q => isFailureItem q.2)).length =
      (results.filter (fun r => !r.2.isEmpty)).length ∧
    (out.response.filter (fun q => !isFailureItem q.2)).length =
      payl_items.length - (results.filter (fun r => !r.2.isEmpty)).length ∧
    ((results.filter (fun r => !r.2.isEmpty)).length < payl_items.length →
      out.effects.filter isInsertCall = [Effect.insertCall (acceptedDocs results)] ∧
      (acceptedDocs results).length =
        payl_items.length - (results.filter (fun r => !r.2.isEmpty)).length) := by
  have hlen : results.length = payl_items.length :=
    validatePhase_length now validator rdef auth payl_items results hv
  have hk_i : (payl_items.map Prod.fst).length = (results.map (fun r => r.2)).length := by
    rw [List.length_map, List.length_map, hlen]
  have hS : ((List.zip (payl_items.map Prod.fst) (results.map (fun r => r.2))).filter
      (fun p => p.2.isEmpty)).length = (results.filter (fun r => r.2.isEmpty)).length := by
    rw [zip_filter_snd_length (fun l => l.isEmpty) _ _ hk_i]
    exact length_filter_map_general (fun r => r.2) (fun l => l.isEmpty) results
  have hK : ((List.zip (payl_items.map Prod.fst) (results.map (fun r => r.2))).filter
      (fun p => !p.2.isEmpty)).length = (results.filter (fun r => !r.2.isEmpty)).length := by
    rw [zip_filter_snd_length (fun l => !l.isEmpty) _ _ hk_i]
    exact length_filter_map_general (fun r => r.2) (fun l => !l.isEmpty) results
  have hsum : (results.filter (fun r => r.2.isEmpty)).length +
      (results.filter (fun r => !r.2.isEmpty)).length = results.length :=
    length_filter_add_length_filter_not (fun r => r.2.isEmpty) results
  have hb2 : ((List.zip (payl_items.map Prod.fst) (results.map (fun r => r.2))).filter
      (fun p => p.2.isEmpty)).length ≤ (acceptedDocs results).length := by
    rw [hS, acceptedDocs_length]
  have hb1 : ((List.zip (payl_items.map Prod.fst) (results.map (fun r => r.2))).filter
      (fun p => p.2.isEmpty)).length ≤
      (if (acceptedDocs results).isEmpty then []
       else storage.insert resource (acceptedDocs results)).length := by
    by_cases hAe : (acceptedDocs results).isEmpty = true
    · have h0 : (acceptedDocs results).length = 0 := by
        rw [List.isEmpty_iff] at hAe
        rw [hAe]
        rfl
      rw [hS, ← acceptedDocs_length, h0] at *
      simp [hAe]
    · simp only [hAe, Bool.false_eq_true, if_false, hstore]
      exact hb2
  obtain ⟨items, hbuild, hmap, hfail, hsucc, hiss⟩ :=
    buildItems_spec storage resource rdef
      (List.zip (payl_items.map Prod.fst) (results.map (fun r => r.2)))
      (if (acceptedDocs results).isEmpty then []
       else storage.insert resource (acceptedDocs results))
      (acceptedDocs results) hb1 hb2
  have hpost2 : post now rdef validator auth storage resource payl_items =
      Except.ok (PostOutput.mk items
        (if (acceptedDocs results).isEmpty then []
         else [Effect.notify "on_insert", Effect.notifyRes resource,
               Effect.insertCall (acceptedDocs results)])) := by
    unfold post
    rw [hv]
    show postAssemble storage resource rdef (payl_items.map Prod.fst) results = _
    unfold postAssemble
    rw [hbuild]
  have hout : out = PostOutput.mk items
      (if (acceptedDocs results).isEmpty then []
       else [Effect.notify "on_insert", Effect.notifyRes resource,
             Effect.insertCall (acceptedDocs results)]) := by
    have htr := hpost.symm.trans hpost2
    injection htr
  subst hout
  have hresp : items.map Prod.fst = payl_items.map Prod.fst := by
    rw [hmap]
    exact List.map_fst_zip _ _ (Nat.le_of_eq hk_i)
  refine ⟨hresp, ?_, hiss, ?_, ?_, ?_⟩
  · have := congrArg List.length hresp
    rw [List.length_map, List.length_map] at this
    exact this
  · rw [hfail, hK]
  · rw [hsucc, hS]
    omega
  · intro hKlt
    have hpos : 0 < (acceptedDocs results).length := by
      rw [acceptedDocs_length]
      omega
    have hAe : (acceptedDocs results).isEmpty = false := by
      cases hAD : acceptedDocs results with
      | nil => simp [hAD] at hpos
      | cons a l => rfl
    constructor
    · simp only [PostOutput.effects, hAe, Bool.false_eq_true, if_false]
      simp [List.filter_cons]
    · rw [acceptedDocs_length]
      omega

/-- C5: when every unit of an insert batch fails validation, post makes no
storage insert call and fires no on_insert notification: the emitted effect
list is empty — a complete no-op from the viewpoint of storage — and every
response item is a failure item (post.py lines 113-119). -/
theorem c5_all_fail_no_op (now : Nat) (rdef : ResourceDef) (validator : Validator)
    (auth : AuthCtx) (storage : Storage) (resource : String)
    (payl_items : List (String × RawValue)) (results : List (DocState × List String))
    (hv : validatePhase now validator rdef auth payl_items = Except.ok results)
    (hall : ∀ r ∈ results, r.2 ≠ []) :
    ∃ items, post now rdef validator auth storage resource payl_items =
      Except.ok (PostOutput.mk items []) ∧
      ∀ q ∈ items, isFailureItem q.2 = true := by
  have hD : acceptedDocs results = [] := by
    unfold acceptedDocs
    have hfil : results.filter (fun r => r.2.isEmpty) = [] := by
      rw [List.filter_eq_nil_iff]
      intro r hr
      have hne := hall r hr
      cases hrl : r.2 with
      | nil => exact absurd hrl hne
      | cons a l => simp [hrl]
    rw [hfil]
    rfl
  have hAe : (acceptedDocs results).isEmpty = true := by rw [hD]; rfl
  have hk_i : (payl_items.map Prod.fst).length = (results.map (fun r => r.2)).length := by
    rw [List.length_map, List.length_map,
      validatePhase_length now validator rdef auth payl_items results hv]
  have hS0 : ((List.zip (payl_items.map Prod.fst) (results.map (fun r => r.2))).filter
      (fun p => p.2.isEmpty)).length = 0 := by
    rw [zip_filter_snd_length (fun l => l.isEmpty) _ _ hk_i,
      length_filter_map_general (fun r => r.2) (fun l => l.isEmpty) results,
      ← acceptedDocs_length, hD]
    rfl
  obtain ⟨items, hbuild, hmap, hfail, hsucc, hiss⟩ :=
    buildItems_spec storage resource rdef
      (List.zip (payl_items.map Prod.fst) (results.map (fun r => r.2)))
      (if (acceptedDocs results).isEmpty then []
       else storage.insert resource (acceptedDocs results))
      (acceptedDocs results)
      (by rw [hS0]; exact Nat.zero_le _) (by rw [hS0]; exact Nat.zero_le _)
  refine ⟨items, ?_, ?_⟩
  · unfold post
    rw [hv]
    show postAssemble storage resource rdef (payl_items.map Prod.fst) results = _
    unfold postAssemble
    rw [hbuild]
    simp [hAe]
  · intro q hq
    have h0 : (items.filter (fun q => !isFailureItem q.2)).length = 0 := by
      rw [hsucc, hS0]
    have hnil : items.filter (fun q => !isFailureItem q.2) = [] :=
      List.length_eq_zero.mp h0
    have hnq := List.filter_eq_nil_iff.mp hnil q hq
    simpa using hnq

/-- The validator of the concrete post scenarios: a document validates
exactly when it carries the field name, and a failed call reports the
single issue missing name. -/
def nameValidator : Validator :=
  Validator.mk (fun d => (containsKey "name" d, ["missing name"]))
    (fun d _ => (containsKey "name" d, ["missing name"]))

/-- The storage of the concrete post scenarios: every identity re-reads to
the one-field document z = id, and a bulk insert assigns identity 7 to
every document. -/
def smallStorage : Storage :=
  Storage.mk (fun _ id => some [("z", id)]) (fun _ docs => docs.map (fun _ => Val.vint 7))

/-- The bulk payload of the c4 witness: a valid unit, an invalid unit and a
unit whose decoding raises. -/
def c4wPayl : List (String × RawValue) :=
  [("k1", RawValue.dict [("name", Val.vstr "a")]),
   ("k2", RawValue.dict []),
   ("k3", RawValue.raises (PyExc.other "boom"))]

/-- The validation-phase results of the c4 witness scenario. -/
def c4wResults : List (DocState × List String) :=
  [(DocState.parsed [("name", Val.vstr "a"), ("status", Val.vstr "active"),
      (LAST_UPDATED, Val.vdate 5), (DATE_CREATED, Val.vdate 5)], []),
   (DocState.parsed [("status", Val.vstr "active")], ["missing name"]),
   (DocState.raw (RawValue.raises (PyExc.other "boom")), ["boom"])]

/-- The post output of the c4 witness scenario. -/
def c4wOut : PostOutput :=
  PostOutput.mk
    [("k1", RespItem.success
        [("status", Val.vstr "OK"), (ID_FIELD, Val.vint 7),
         (LAST_UPDATED, Val.vdate 5), ("etag", Val.vstr "z=i:7;")]),
     ("k2", RespItem.failure ["missing name"]),
     ("k3", RespItem.failure ["boom"])]
    [Effect.notify "on_insert", Effect.notifyRes "people",
     Effect.insertCall [[("name", Val.vstr "a"), ("status", Val.vstr "active"),
       (LAST_UPDATED, Val.vdate 5), (DATE_CREATED, Val.vdate 5)]]]

/-- Witness for c4_bulk_insert_aggregation at the concrete three-unit batch
with one valid document. -/
theorem c4_bulk_insert_aggregation_witness :
    (validatePhase 5 nameValidator rdefDefaults (AuthCtx.mk none false) c4wPayl =
        Except.ok c4wResults ∧
     (∀ docs, (smallStorage.insert "people" docs).length = docs.length) ∧
     post 5 rdefDefaults nameValidator (AuthCtx.mk none false) smallStorage "people" c4wPayl =
        Except.ok c4wOut) ∧
    (c4wOut.response.map Prod.fst = c4wPayl.map Prod.fst ∧
     c4wOut.response.length = c4wPayl.length ∧
     (∀ q ∈ c4wOut.response, ∀ iss, q.2 = RespItem.failure iss → iss ≠ []) ∧
     (c4wOut.response.filter (fun q => isFailureItem q.2)).length =
       (c4wResults.filter (fun r => !r.2.isEmpty)).length ∧
     (c4wOut.response.filter (fun q => !isFailureItem q.2)).length =
       c4wPayl.length - (c4wResults.filter (fun r => !r.2.isEmpty)).length ∧
     ((c4wResults.filter (fun r => !r.2.isEmpty)).length < c4wPayl.length →
       c4wOut.effects.filter isInsertCall = [Effect.insertCall (acceptedDocs c4wResults)] ∧
       (acceptedDocs c4wResults).length =
         c4wPayl.length - (c4wResults.filter (fun r => !r.2.isEmpty)).length)) :=
  ⟨⟨by decide, fun docs => by simp [smallStorage], by decide⟩,
   c4_bulk_insert_aggregation 5 rdefDefaults nameValidator (AuthCtx.mk none false)
     smallStorage "people" c4wPayl c4wResults c4wOut (by decide)
     (fun docs => by simp [smallStorage]) (by decide)⟩

/-- The all-failing payload of the c5 witness. -/
def c5wPayl : List (String × RawValue) :=
  [("k1", RawValue.dict []), ("k2", RawValue.raises (PyExc.other "bad input"))]

/-- The validation-phase results of the c5 witness scenario. -/
def c5wResults : List (DocState × List String) :=
  [(DocState.parsed [], ["missing name"]),
   (DocState.raw (RawValue.raises (PyExc.other "bad input")), ["bad input"])]

/-- A resource configuration with nothing configured at all. -/
def rdefPlain : ResourceDef := ResourceDef.mk [] [] "" false []

/-- Witness for c5_all_fail_no_op at a concrete two-unit batch where both
units fail. -/
theorem c5_all_fail_no_op_witness :
    (validatePhase 5 nameValidator rdefPlain (AuthCtx.mk none false) c5wPayl =
        Except.ok c5wResults ∧
     (∀ r ∈ c5wResults, r.2 ≠ [])) ∧
    (∃ items, post 5 rdefPlain nameValidator (AuthCtx.mk none false) smallStorage
        "people" c5wPayl = Except.ok (PostOutput.mk items []) ∧
      ∀ q ∈ items, isFailureItem q.2 = true) :=
  ⟨⟨by decide, by decide⟩,
   c5_all_fail_no_op 5 rdefPlain nameValidator (AuthCtx.mk none false) smallStorage
     "people" c5wPayl c5wResults (by decide) (by decide)⟩
